import Mathlib

/-!
Shallow embedding of the CHIP-8 interpreter in `src/lib.rs` of ryanisaacg/crunch.

Machine bytes (`u8`) and words (`u16`) are modelled as `Nat`; the byte stores
(`registers: [u8; 16]`, `Memory(Box<[u8; 4096]>)`) are modelled as functions
`Nat → Nat` whose reads truncate with `% 256`, encoding the `u8` element type
of the Rust arrays.  Rust panics (array index out of bounds, `expect` on an
empty stack, `panic!` on an unknown instruction) are modelled as `Except`
errors.  The `rand::random::<u8>()` call in the 0xC opcode is modelled by an
extra `rand` argument to `advance`.
-/

namespace Crunch

/-- const SCREEN_WIDTH: u8 = 64 -/
def SCREEN_WIDTH : Nat := 64

/-- const SCREEN_HEIGHT: u8 = 32 -/
def SCREEN_HEIGHT : Nat := 32

/-- const ROM_START: usize = 512 -/
def ROM_START : Nat := 512

/-- const FONT_START: usize = 0x50 -/
def FONT_START : Nat := 0x50

/-- Fatal conditions: each corresponds to a Rust panic in `src/lib.rs`
(out-of-bounds array index, `expect` on `Vec::pop` of an empty stack, and the
explicit `panic!("instruction unknown: {}", instr)` arms, which carry the raw
instruction value). -/
inductive EmuError where
  | outOfRange : EmuError
  | stackUnderflow : EmuError
  | unknownInstruction : Nat → EmuError
deriving DecidableEq

/-- pub struct CPU { delay_timer, sound_timer, stack, program_counter,
index_register, registers } -/
structure CPU where
  delay_timer : Nat
  sound_timer : Nat
  stack : List Nat
  program_counter : Nat
  index_register : Nat
  registers : Nat → Nat

/-- fn register(&self, index: u16) -> u8 { self.registers[index as usize] }.
The `% 256` encodes the `u8` element type of the register file; every call
site in `advance` passes an index below 16, so the array access is in range. -/
def CPU.register (cpu : CPU) (index : Nat) : Nat :=
  cpu.registers index % 256

/-- fn set_register(&mut self, index: u16, value: u8). -/
def CPU.set_register (cpu : CPU) (index value : Nat) : CPU :=
  { cpu with registers := fun i => if i = index then value else cpu.registers i }

/-- pub struct Display(Box<[[bool; 64]; 32]>): row-major, `data y x`. -/
structure Display where
  data : Nat → Nat → Bool

/-- fn new() -> Display: every pixel starts off. -/
def Display.new : Display := ⟨fun _ _ => false⟩

/-- fn clear(&mut self): sets every pixel to off. -/
def Display.clear (_ : Display) : Display := ⟨fun _ _ => false⟩

/-- fn get_pixel(&self, x: u8, y: u8) -> bool { self.0[y as usize][x as usize] } -/
def Display.get_pixel (d : Display) (x y : Nat) : Bool := d.data y x

/-- pub struct Memory(Box<[u8; 4096]>). -/
structure Memory where
  data : Nat → Nat

/-- fn get(&self, idx: u16) -> u8 { self.0[idx as usize] }: panics when the
index is 4096 or more; the `% 256` encodes the `u8` element type. -/
def Memory.get (m : Memory) (idx : Nat) : Except EmuError Nat :=
  if idx < 4096 then .ok (m.data idx % 256) else .error .outOfRange

/-- fn set(&mut self, idx: u16, value: u8): panics when the index is 4096 or
more. -/
def Memory.set (m : Memory) (idx value : Nat) : Except EmuError Memory :=
  if idx < 4096 then .ok ⟨fun i => if i = idx then value else m.data i⟩
  else .error .outOfRange

/-- Rust `as u8` on a signed 16-bit value: two's-complement truncation to the
low 8 bits, i.e. the value modulo 256. -/
def asU8 (v : Int) : Nat := (v % 256).toNat

/-- Inner loop of the 0xD sprite draw: `for bit in 0..7 { ... }` in the
source, so `fuel` starts at 7 — the source iterates bit positions 0..6 only
and never draws the least-significant bit of the row byte.  The body mirrors
the source exactly: when the bit is set it calls `get_pixel_mut(x, y)` (a
panic — here an error — when y ≥ 32 or x ≥ 64), records a collision in
register 15 when the pixel was already on, and flips the pixel; then `x += 1`.
The source's trailing `if x >= SCREEN_WIDTH { continue; }` is the last
statement of the loop body, so it has no effect and is omitted. -/
def drawBits (byte y : Nat) : Nat → Nat → Nat → CPU → Display →
    Except EmuError (CPU × Display)
  | 0, _, _, cpu, d => .ok (cpu, d)
  | fuel + 1, bit, x, cpu, d =>
    if byte &&& (128 >>> bit) ≠ 0 then
      if y < SCREEN_HEIGHT ∧ x < SCREEN_WIDTH then
        let pixel := d.data y x
        let cpu := if pixel then cpu.set_register 0xF 1 else cpu
        let d : Display := ⟨fun y' x' => if y' = y ∧ x' = x then !pixel else d.data y' x'⟩
        drawBits byte y fuel (bit + 1) (x + 1) cpu d
      else .error .outOfRange
    else
      drawBits byte y fuel (bit + 1) (x + 1) cpu d

/-- Outer loop of the 0xD sprite draw: `for i in 0..n`, reading the row byte
from memory at `i + index_register` and drawing its bits at row `y`; then
`y += 1`.  The source's trailing `if y >= SCREEN_HEIGHT { continue; }` is the
last statement of the loop body, so it has no effect and is omitted. -/
def drawRows (m : Memory) (x : Nat) : Nat → Nat → Nat → CPU → Display →
    Except EmuError (CPU × Display)
  | 0, _, _, cpu, d => .ok (cpu, d)
  | fuel + 1, i, y, cpu, d => do
    let byte ← m.get (i + cpu.index_register)
    let (cpu, d) ← drawBits byte y 7 0 x cpu d
    drawRows m x fuel (i + 1) (y + 1) cpu d

/-- Loop of opcode 0xF/0x55: `for i in 0..=op { memory.set(index + i, register(i)) }`;
called with `fuel = op + 1` and `i = 0`. -/
def storeRegs (cpu : CPU) : Nat → Nat → Memory → Except EmuError Memory
  | 0, _, m => .ok m
  | fuel + 1, i, m => do
    let m ← m.set (cpu.index_register + i) (cpu.register i)
    storeRegs cpu fuel (i + 1) m

/-- Loop of opcode 0xF/0x65: `for i in 0..=op { set_register(i, memory.get(index + i)) }`;
called with `fuel = op + 1` and `i = 0`. -/
def loadRegs (m : Memory) : Nat → Nat → CPU → Except EmuError CPU
  | 0, _, cpu => .ok cpu
  | fuel + 1, i, cpu => do
    let v ← m.get (cpu.index_register + i)
    loadRegs m fuel (i + 1) (cpu.set_register i v)

/-- pub fn advance(cpu, display, memory): one fetch-decode-execute step of the
interpreter, translated branch for branch from `src/lib.rs`.  Fetch combines
the two bytes at the program counter (high byte first), the program counter
advances by 2, and then — before the decoded operation executes — both timers
are decremented when nonzero.  The Rust `match` on nibbles is rendered as a
chain of equality tests on the same scrutinees.  `rand` stands for the byte
`rand::random::<u8>()` would produce in the 0xC arm. -/
def advance (rand : Nat) (cpu : CPU) (display : Display) (memory : Memory) :
    Except EmuError (CPU × Display × Memory) := do
  let hi ← memory.get cpu.program_counter
  let lo ← memory.get (cpu.program_counter + 1)
  let instr := (hi <<< 8) ||| lo
  let cpu := { cpu with program_counter := cpu.program_counter + 2 }
  let cpu := if cpu.delay_timer > 0 then { cpu with delay_timer := cpu.delay_timer - 1 } else cpu
  let cpu := if cpu.sound_timer > 0 then { cpu with sound_timer := cpu.sound_timer - 1 } else cpu
  if instr >>> 12 = 0 then
    if instr &&& 0x00FF = 0xE0 then
      .ok (cpu, display.clear, memory)
    else if instr &&& 0x00FF = 0xEE then
      match cpu.stack with
      | [] => .error .stackUnderflow
      | top :: rest => .ok ({ cpu with program_counter := top, stack := rest }, display, memory)
    else .error (.unknownInstruction instr)
  else if instr >>> 12 = 1 then
    .ok ({ cpu with program_counter := instr &&& 0x0FFF }, display, memory)
  else if instr >>> 12 = 2 then
    .ok ({ cpu with stack := cpu.program_counter :: cpu.stack
                    program_counter := instr &&& 0x0FFF }, display, memory)
  else if instr >>> 12 = 3 then
    let register_value := cpu.register ((instr &&& 0x0F00) >>> 8)
    let value := instr &&& 0x00FF
    .ok (if register_value = value
         then { cpu with program_counter := cpu.program_counter + 2 } else cpu,
         display, memory)
  else if instr >>> 12 = 4 then
    let register_value := cpu.register ((instr &&& 0x0F00) >>> 8)
    let value := instr &&& 0x00FF
    .ok (if register_value ≠ value
         then { cpu with program_counter := cpu.program_counter + 2 } else cpu,
         display, memory)
  else if instr >>> 12 = 5 then
    let a := cpu.register ((instr &&& 0x0F00) >>> 8)
    let b := cpu.register ((instr &&& 0x00F0) >>> 4)
    .ok (if a = b then { cpu with program_counter := cpu.program_counter + 2 } else cpu,
         display, memory)
  else if instr >>> 12 = 9 then
    let a := cpu.register ((instr &&& 0x0F00) >>> 8)
    let b := cpu.register ((instr &&& 0x00F0) >>> 4)
    .ok (if a ≠ b then { cpu with program_counter := cpu.program_counter + 2 } else cpu,
         display, memory)
  else if instr >>> 12 = 6 then
    .ok (cpu.set_register ((instr &&& 0x0F00) >>> 8) (instr &&& 0x00FF), display, memory)
  else if instr >>> 12 = 7 then
    let index := (instr &&& 0x0F00) >>> 8
    let register_value := cpu.register index
    let constant := instr &&& 0x00FF
    let sum := register_value + constant
    .ok (cpu.set_register index (sum % 256), display, memory)
  else if instr >>> 12 = 8 then
    let r := (instr &&& 0x0F00) >>> 8
    let a := cpu.register r
    let b := cpu.register ((instr &&& 0x00F0) >>> 4)
    if instr &&& 0x000F = 0 then
      .ok (cpu.set_register r b, display, memory)
    else if instr &&& 0x000F = 1 then
      .ok (cpu.set_register r (a ||| b), display, memory)
    else if instr &&& 0x000F = 2 then
      .ok (cpu.set_register r (a &&& b), display, memory)
    else if instr &&& 0x000F = 3 then
      .ok (cpu.set_register r (a ^^^ b), display, memory)
    else if instr &&& 0x000F = 4 then
      let result := a + b
      .ok ((cpu.set_register r (result % 256)).set_register 0xF
             (if result > 255 then 1 else 0), display, memory)
    else if instr &&& 0x000F = 5 ∨ instr &&& 0x000F = 7 then
      let result : Int := if instr &&& 0x000F = 5 then (a : Int) - (b : Int)
                          else (b : Int) - (a : Int)
      if result ≥ 0 then
        .ok ((cpu.set_register r (asU8 result)).set_register 0xF 1, display, memory)
      else
        .ok ((cpu.set_register r (asU8 (256 + result))).set_register 0xF 0, display, memory)
    else if instr &&& 0x000F = 6 then
      .ok (cpu.set_register r (a >>> 1), display, memory)
    else if instr &&& 0x000F = 0xE then
      .ok (cpu.set_register r ((a <<< 1) % 256), display, memory)
    else .error (.unknownInstruction instr)
  else if instr >>> 12 = 0xA then
    .ok ({ cpu with index_register := instr &&& 0x0FFF }, display, memory)
  else if instr >>> 12 = 0xB then
    let pointer := cpu.register 0
    let offset := instr &&& 0x0FFF
    .ok ({ cpu with program_counter := pointer + offset }, display, memory)
  else if instr >>> 12 = 0xC then
    let mask := instr &&& 0x00FF
    .ok (cpu.set_register ((instr &&& 0x0F00) >>> 8) (mask &&& rand), display, memory)
  else if instr >>> 12 = 0xD then
    let x := cpu.register ((instr &&& 0x0F00) >>> 8) % SCREEN_WIDTH
    let y := cpu.register ((instr &&& 0x00F0) >>> 4) % SCREEN_HEIGHT
    let n := instr &&& 0x00F
    let cpu := cpu.set_register 0xF 0
    let (cpu, display) ← drawRows memory x n 0 y cpu display
    .ok (cpu, display, memory)
  else if instr >>> 12 = 0xE then
    -- the 0xE arm of the source contains only the comment
    -- "TODO: keyboard input": it executes nothing.
    .ok (cpu, display, memory)
  else if instr >>> 12 = 0xF then
    let op := (instr &&& 0x0F00) >>> 8
    if instr &&& 0x00FF = 0x07 then
      .ok (cpu.set_register op cpu.delay_timer, display, memory)
    else if instr &&& 0x00FF = 0x15 then
      .ok ({ cpu with delay_timer := cpu.register op }, display, memory)
    else if instr &&& 0x00FF = 0x18 then
      .ok ({ cpu with sound_timer := cpu.register op }, display, memory)
    else if instr &&& 0x00FF = 0x1E then
      -- u16 addition, modelled wrapping
      let result := (cpu.register op + cpu.index_register) % 65536
      let cpu := if result > 0x0FFF then cpu.set_register 0xF 1 else cpu
      .ok ({ cpu with index_register := result }, display, memory)
    else if instr &&& 0x00FF = 0x0A then
      -- the 0x0A arm of the source contains only the comment
      -- "TODO: block and wait for key input": it executes nothing.
      .ok (cpu, display, memory)
    else if instr &&& 0x00FF = 0x29 then
      -- source: (FONT_START as u16) + (cpu.register(op) as u16) & 0x0F * 5
      -- which Rust parses as (FONT_START + register(op)) & (0x0F * 5).
      .ok ({ cpu with index_register := (FONT_START + cpu.register op) &&& (0x0F * 5) },
           display, memory)
    else if instr &&& 0x00FF = 0x33 then do
      let value := cpu.register op
      let memory ← memory.set (cpu.index_register + 2) (value % 10)
      let memory ← memory.set (cpu.index_register + 1) ((value / 10) % 10)
      let memory ← memory.set cpu.index_register ((value / 100) % 10)
      .ok (cpu, display, memory)
    else if instr &&& 0x00FF = 0x55 then do
      let memory ← storeRegs cpu (op + 1) 0 memory
      .ok (cpu, display, memory)
    else if instr &&& 0x00FF = 0x65 then do
      let cpu ← loadRegs memory (op + 1) 0 cpu
      .ok (cpu, display, memory)
    else .error (.unknownInstruction instr)
  else
    -- the source's final arm is `unreachable!`: a first nibble above 0xF
    -- cannot occur since the instruction is built from two bytes.
    .error (.unknownInstruction instr)

/-- The 16-bit instruction `advance` fetches at the current program counter:
the byte at the program counter is the high-order byte. -/
def fetched (cpu : CPU) (memory : Memory) : Nat :=
  ((memory.data cpu.program_counter % 256) <<< 8) |||
    (memory.data (cpu.program_counter + 1) % 256)

/-- Run `advance` a given number of steps (feeding 0 for the random byte). -/
def steps : Nat → CPU → Display → Memory → Except EmuError (CPU × Display × Memory)
  | 0, cpu, d, m => .ok (cpu, d, m)
  | n + 1, cpu, d, m => do
    let (cpu, d, m) ← advance 0 cpu d m
    steps n cpu d m

/-- The error of a step result, when it is fatal. -/
def errOf (r : Except EmuError (CPU × Display × Memory)) : Option EmuError :=
  match r with
  | .error e => some e
  | .ok _ => none

/-- The CPU as `Chip8::new` initialises it (timers 0, empty stack, program
counter at the ROM base, index register 0), with the given register file. -/
def mkCPU (regs : Nat → Nat) : CPU :=
  { delay_timer := 0, sound_timer := 0, stack := [], program_counter := ROM_START,
    index_register := 0, registers := regs }

/-- Program for the spec's sprite scenario: `00 E0`, `00 E0`, `D0 01` loaded
at the ROM base, with the single sprite row byte 0xFF at address 0 (the index
register starts at 0). -/
def romClearClearDraw : Memory := ⟨fun a =>
  if a = 512 then 0x00 else if a = 513 then 0xE0 else
  if a = 514 then 0x00 else if a = 515 then 0xE0 else
  if a = 516 then 0xD0 else if a = 517 then 0x01 else
  if a = 0 then 0xFF else 0⟩

/-- Program holding the single instruction `F0 29` (font address for the
character in register 0). -/
def romFontChar : Memory := ⟨fun a =>
  if a = 512 then 0xF0 else if a = 513 then 0x29 else 0⟩

/-- Program holding the single instruction `E0 9E` (skip if key in register 0
pressed). -/
def romSkipIfKey : Memory := ⟨fun a =>
  if a = 512 then 0xE0 else if a = 513 then 0x9E else 0⟩

/-- Program holding the single instruction `E0 A1` (skip if key in register 0
not pressed). -/
def romSkipIfNotKey : Memory := ⟨fun a =>
  if a = 512 then 0xE0 else if a = 513 then 0xA1 else 0⟩

/-- Program holding the single instruction `F0 15` (delay timer := register 0). -/
def romSetDelay : Memory := ⟨fun a =>
  if a = 512 then 0xF0 else if a = 513 then 0x15 else 0⟩

/-- Program holding the single instruction `80 16` (shift register 0 right,
second register 1). -/
def romShiftRight : Memory := ⟨fun a =>
  if a = 512 then 0x80 else if a = 513 then 0x16 else 0⟩

/-- Program holding the single instruction `D0 01` (one-row sprite draw at
the coordinates in registers 0 and 0), with sprite row byte 0xFF at address 0. -/
def romDrawOneRow : Memory := ⟨fun a =>
  if a = 512 then 0xD0 else if a = 513 then 0x01 else
  if a = 0 then 0xFF else 0⟩

/-- Program holding the single instruction `E0 12`: family 0xE with a low
byte that is neither 0x9E nor 0xA1, so it is outside the opcode table. -/
def romBadKeyOp : Memory := ⟨fun a =>
  if a = 512 then 0xE0 else if a = 513 then 0x12 else 0⟩

/-- Program holding the single instruction `BF FF` (jump to register 0 plus
0xFFF). -/
def romJumpOffset : Memory := ⟨fun a =>
  if a = 512 then 0xBF else if a = 513 then 0xFF else 0⟩

/-- Program holding the single instruction `F0 FF`: family 0xF with a low
byte outside the opcode table. -/
def romBadFOp : Memory := ⟨fun a =>
  if a = 512 then 0xF0 else if a = 513 then 0xFF else 0⟩

/-- Program holding `23 00` (call the subroutine at 0x300) at the ROM base
and `00 EE` (return) at 0x300. -/
def romCallRet : Memory := ⟨fun a =>
  if a = 512 then 0x23 else if a = 513 then 0x00 else
  if a = 768 then 0x00 else if a = 769 then 0xEE else 0⟩

/-- Program holding the single instruction `8F 04` (register 15 += register 0
with carry flag). -/
def romAddToFlag : Memory := ⟨fun a =>
  if a = 512 then 0x8F else if a = 513 then 0x04 else 0⟩

/-- A CPU with every register zero. -/
def cpuZero : CPU := mkCPU (fun _ => 0)

/-- A CPU with register 0 = 5 and the delay timer at 9. -/
def cpuDelay9 : CPU := { mkCPU (fun i => if i = 0 then 5 else 0) with delay_timer := 9 }

/-- A CPU with registers 0 and 1 both 1. -/
def cpuOnes01 : CPU := mkCPU (fun i => if i = 0 ∨ i = 1 then 1 else 0)

/-- A CPU with register 15 = 200 and register 0 = 100. -/
def cpuAddFlag : CPU := mkCPU (fun i => if i = 15 then 200 else if i = 0 then 100 else 0)

/-- C1: the spec's concrete scenario — two `00 E0` steps then a one-row 0xFF
sprite draw at (0,0) — leaves exactly SEVEN pixels on in row 0 (bits 0..6 of
the row byte) with register 15 = 0, not the eight pixels the claim states:
the source's inner loop `for bit in 0..7` skips the least-significant bit. -/
theorem sprite_scenario_draws_seven_pixels :
    ((steps 3 (mkCPU (fun _ => 0)) Display.new romClearClearDraw).toOption.map
      (fun t => ((List.range 64).countP (fun px => t.2.1.data 0 px), t.1.register 15)))
      = some (7, 0) := by decide

/-- C2: executing `F0 29` with register 0 = 1 sets the index register to
(0x50 + 1) AND (0x0F * 5) = 0x41, not the font address 0x50 + 1 × 5 = 0x55
the claim states: the source's expression `FONT_START + register(op) & 0x0F * 5`
binds the bitwise AND last. -/
theorem font_char_addressing_is_masked_sum :
    ((advance 0 (mkCPU (fun i => if i = 0 then 1 else 0)) Display.new romFontChar).toOption.map
      (fun t => t.1.index_register)) = some 0x41 ∧ (0x41 : Nat) ≠ FONT_START + 1 * 5 := by
  decide

/-- C3: executing either key-skip instruction (`E0 9E` or `E0 A1`) advances
the program counter by exactly 2 — never by 4 — and does not fail: the 0xE
arm of `advance` is an empty TODO and `advance` is not even given a key-state
vector, so no key state can ever cause a skip. -/
theorem key_skip_instructions_never_skip :
    (((advance 0 (mkCPU (fun _ => 0)) Display.new romSkipIfKey).toOption.map
        (fun t => t.1.program_counter)) = some 514) ∧
    (((advance 0 (mkCPU (fun _ => 0)) Display.new romSkipIfNotKey).toOption.map
        (fun t => t.1.program_counter)) = some 514) := by decide

/-- C4 counterexample: with the delay timer at 9 and register 0 = 5,
executing `F0 15` ends the step with the delay timer equal to 5, not 5 − 1:
the timers are decremented between fetch and execute, before the operation
writes the timer. -/
theorem set_delay_timer_counterexample :
    ((advance 0 { mkCPU (fun i => if i = 0 then 5 else 0) with delay_timer := 9 }
        Display.new romSetDelay).toOption.map (fun t => t.1.delay_timer)) = some 5
      ∧ (5 : Nat) ≠ 5 - 1 := by decide

/-- C5 counterexample: with registers 0 and 1 both 1, executing `80 16`
(right shift) leaves register 15 = 0 even though the bit shifted out of the
odd operand is 1: the source's shift arms never write register 15. -/
theorem shift_right_flag_counterexample :
    ((advance 0 (mkCPU (fun i => if i = 0 ∨ i = 1 then 1 else 0)) Display.new
        romShiftRight).toOption.map
      (fun t => (t.1.register 0, t.1.register 15))) = some (0, 0) ∧ (0 : Nat) ≠ 1 := by
  decide

/-- C6: drawing a one-row all-ones sprite starting at column 63 fails with an
out-of-range display access: the source's `if x >= SCREEN_WIDTH { continue; }`
is the last statement of the bit loop, so it never stops the row, and the
second set bit indexes column 64. -/
theorem draw_at_column_63_is_out_of_range :
    errOf (advance 0 (mkCPU (fun i => if i = 0 then 63 else 0)) Display.new romDrawOneRow)
      = some .outOfRange := by decide

/-- C7 counterexample: the instruction `E0 12` has an opcode/sub-opcode
combination outside the table (family 0xE, low byte neither 0x9E nor 0xA1),
yet the step does not fail — it silently continues with the program counter
advanced by 2. -/
theorem unknown_key_op_silently_continues :
    errOf (advance 0 (mkCPU (fun _ => 0)) Display.new romBadKeyOp) = none ∧
    ((advance 0 (mkCPU (fun _ => 0)) Display.new romBadKeyOp).toOption.map
      (fun t => t.1.program_counter)) = some 514 := by decide

/-- C8 counterexample: executing `BF FF` with register 0 = 255 sets the
program counter to 255 + 0x0FFF = 4350, which exceeds 0x0FFF: the 0xB jump
stores the sum without truncating it to the address space. -/
theorem jump_with_offset_exceeds_address_space :
    ((advance 0 (mkCPU (fun i => if i = 0 then 255 else 0)) Display.new
        romJumpOffset).toOption.map
      (fun t => t.1.program_counter)) = some 4350 ∧ ¬((4350 : Nat) ≤ 0x0FFF) := by decide

/-- C4 (amended): a step executing 0xF/0x15 ends with the delay timer equal
to register X (not register X − 1): the timers are decremented between fetch
and execute, so the operation's write lands after the tick, while the sound
timer still shows the decrement. -/
theorem delay_timer_write_lands_after_tick (rand : Nat) (cpu : CPU) (d : Display) (m : Memory)
    (h1 : cpu.program_counter + 1 < 4096)
    (h2 : fetched cpu m >>> 12 = 0xF)
    (h3 : fetched cpu m &&& 0x00FF = 0x15) :
    ∃ cpu', advance rand cpu d m = .ok (cpu', d, m) ∧
      cpu'.delay_timer = cpu.register ((fetched cpu m &&& 0x0F00) >>> 8) ∧
      cpu'.sound_timer = (if 0 < cpu.sound_timer then cpu.sound_timer - 1 else cpu.sound_timer) := by
  have h0 : cpu.program_counter < 4096 := by omega
  simp only [fetched] at h2 h3 ⊢
  unfold advance
  simp only [Memory.get, if_pos h0, if_pos h1, bind, Except.bind, h2, h3]
  norm_num
  simp [CPU.register, apply_ite CPU.registers, apply_ite CPU.sound_timer,
    apply_ite CPU.delay_timer]

/-- Witness for the amended C4 theorem at a concrete machine state. -/
theorem delay_timer_write_lands_after_tick_witness :
    ∃ cpu', advance 0 cpuDelay9 Display.new romSetDelay = .ok (cpu', Display.new, romSetDelay) ∧
      cpu'.delay_timer = cpuDelay9.register ((fetched cpuDelay9 romSetDelay &&& 0x0F00) >>> 8) ∧
      cpu'.sound_timer =
        (if 0 < cpuDelay9.sound_timer then cpuDelay9.sound_timer - 1 else cpuDelay9.sound_timer) :=
  delay_timer_write_lands_after_tick 0 cpuDelay9 Display.new romSetDelay
    (by decide) (by decide) (by decide)

/-- C5 (amended): the shift operations (0x8 sub-op 6 and 0x8 sub-op 0xE)
never write register 15 — whenever X is not 15, register 15 is unchanged by
the step, rather than receiving the bit shifted out. -/
theorem shift_ops_leave_flag_unchanged (rand : Nat) (cpu : CPU) (d : Display) (m : Memory)
    (h1 : cpu.program_counter + 1 < 4096)
    (h2 : fetched cpu m >>> 12 = 8)
    (h3 : fetched cpu m &&& 0x000F = 6 ∨ fetched cpu m &&& 0x000F = 0xE)
    (h4 : (fetched cpu m &&& 0x0F00) >>> 8 ≠ 15) :
    ∃ cpu', advance rand cpu d m = .ok (cpu', d, m) ∧
      cpu'.register 15 = cpu.register 15 := by
  have h0 : cpu.program_counter < 4096 := by omega
  simp only [fetched] at h2 h3 h4 ⊢
  unfold advance
  rcases h3 with h3 | h3 <;>
    simp only [Memory.get, if_pos h0, if_pos h1, bind, Except.bind, h2, h3] <;>
    norm_num <;>
    simp [CPU.register, CPU.set_register, apply_ite CPU.registers, Ne.symm h4]

/-- Witness for the amended C5 theorem at a concrete machine state. -/
theorem shift_ops_leave_flag_unchanged_witness :
    ∃ cpu', advance 0 cpuOnes01 Display.new romShiftRight =
        .ok (cpu', Display.new, romShiftRight) ∧
      cpu'.register 15 = cpuOnes01.register 15 :=
  shift_ops_leave_flag_unchanged 0 cpuOnes01 Display.new romShiftRight
    (by decide) (by decide) (by decide) (by decide)

/-- C7 (amended): in the decoded families that check a sub-selector other
than family 0xE — families 0x0, 0x8 and 0xF — an opcode/sub-opcode
combination outside the table is fatal, reporting the raw instruction value;
family 0xE (see the counterexample) silently continues instead. -/
theorem unknown_instruction_fatal_in_decoded_families (rand : Nat) (cpu : CPU)
    (d : Display) (m : Memory)
    (h1 : cpu.program_counter + 1 < 4096)
    (h2 : (fetched cpu m >>> 12 = 0 ∧ fetched cpu m &&& 0x00FF ≠ 0xE0 ∧
             fetched cpu m &&& 0x00FF ≠ 0xEE) ∨
          (fetched cpu m >>> 12 = 8 ∧ fetched cpu m &&& 0x000F ≠ 0 ∧
             fetched cpu m &&& 0x000F ≠ 1 ∧ fetched cpu m &&& 0x000F ≠ 2 ∧
             fetched cpu m &&& 0x000F ≠ 3 ∧ fetched cpu m &&& 0x000F ≠ 4 ∧
             fetched cpu m &&& 0x000F ≠ 5 ∧ fetched cpu m &&& 0x000F ≠ 7 ∧
             fetched cpu m &&& 0x000F ≠ 6 ∧ fetched cpu m &&& 0x000F ≠ 0xE) ∨
          (fetched cpu m >>> 12 = 0xF ∧ fetched cpu m &&& 0x00FF ≠ 0x07 ∧
             fetched cpu m &&& 0x00FF ≠ 0x15 ∧ fetched cpu m &&& 0x00FF ≠ 0x18 ∧
             fetched cpu m &&& 0x00FF ≠ 0x1E ∧ fetched cpu m &&& 0x00FF ≠ 0x0A ∧
             fetched cpu m &&& 0x00FF ≠ 0x29 ∧ fetched cpu m &&& 0x00FF ≠ 0x33 ∧
             fetched cpu m &&& 0x00FF ≠ 0x55 ∧ fetched cpu m &&& 0x00FF ≠ 0x65)) :
    advance rand cpu d m = .error (.unknownInstruction (fetched cpu m)) := by
  have h0 : cpu.program_counter < 4096 := by omega
  simp only [fetched] at h2 ⊢
  unfold advance
  rcases h2 with ⟨h2, ha, hb⟩ | ⟨h2, ha, hb, hc, he, hf, hg, hh, hi, hj⟩ |
    ⟨h2, ha, hb, hc, he, hf, hg, hh, hi, hj⟩
  · simp only [Memory.get, if_pos h0, if_pos h1, bind, Except.bind, h2]
    norm_num [ha, hb]
  · simp only [Memory.get, if_pos h0, if_pos h1, bind, Except.bind, h2]
    norm_num [ha, hb, hc, he, hf, hg, hh, hi, hj]
  · simp only [Memory.get, if_pos h0, if_pos h1, bind, Except.bind, h2]
    norm_num [ha, hb, hc, he, hf, hg, hh, hi, hj]

/-- Witness for the amended C7 theorem: `F0 FF` is fatal with the raw
instruction value reported. -/
theorem unknown_instruction_fatal_witness :
    advance 0 cpuZero Display.new romBadFOp =
      .error (.unknownInstruction (fetched cpuZero romBadFOp)) :=
  unknown_instruction_fatal_in_decoded_families 0 cpuZero Display.new romBadFOp
    (by decide) (by decide)

/-- C8 (amended): the jump (0x1) and call (0x2) families truncate the stored
program counter to the low 12 bits, so it never exceeds 0x0FFF; the
offset-jump family 0xB (see the counterexample) stores register 0 plus the
low 12 bits without truncation. -/
theorem jump_and_call_truncate_pc (rand : Nat) (cpu : CPU) (d : Display) (m : Memory)
    (h1 : cpu.program_counter + 1 < 4096)
    (h2 : fetched cpu m >>> 12 = 1 ∨ fetched cpu m >>> 12 = 2) :
    ∃ cpu', advance rand cpu d m = .ok (cpu', d, m) ∧
      cpu'.program_counter ≤ 0x0FFF := by
  have h0 : cpu.program_counter < 4096 := by omega
  simp only [fetched] at h2 ⊢
  unfold advance
  rcases h2 with h2 | h2 <;>
    simp only [Memory.get, if_pos h0, if_pos h1, bind, Except.bind, h2] <;>
    norm_num <;>
    exact Nat.and_le_right

/-- Witness for the amended C8 theorem at a concrete machine state. -/
theorem jump_and_call_truncate_pc_witness :
    ∃ cpu', advance 0 cpuZero Display.new romCallRet = .ok (cpu', Display.new, romCallRet) ∧
      cpu'.program_counter ≤ 0x0FFF :=
  jump_and_call_truncate_pc 0 cpuZero Display.new romCallRet (by decide) (by decide)

/-- C9: executing a call (0x2) and then immediately the return `00 EE` at the
call target leaves the program counter at its value just after the call's
fetch — the call instruction's address plus 2. -/
theorem call_then_return_restores_pc (r r' : Nat) (cpu : CPU) (d : Display) (m : Memory)
    (h1 : cpu.program_counter + 1 < 4096)
    (h2 : fetched cpu m >>> 12 = 2)
    (h3 : (fetched cpu m &&& 0x0FFF) + 1 < 4096)
    (h4 : m.data (fetched cpu m &&& 0x0FFF) % 256 = 0x00)
    (h5 : m.data ((fetched cpu m &&& 0x0FFF) + 1) % 256 = 0xEE) :
    ∃ cpu₁ cpu₂,
      advance r cpu d m = .ok (cpu₁, d, m) ∧
      advance r' cpu₁ d m = .ok (cpu₂, d, m) ∧
      cpu₂.program_counter = cpu.program_counter + 2 := by
  have h0 : cpu.program_counter < 4096 := by omega
  obtain ⟨cpu₁, hstep1, hpc1, hstack1⟩ :
      ∃ cpu₁, advance r cpu d m = .ok (cpu₁, d, m) ∧
        cpu₁.program_counter = fetched cpu m &&& 0x0FFF ∧
        cpu₁.stack = (cpu.program_counter + 2) :: cpu.stack := by
    simp only [fetched] at h2 ⊢
    unfold advance
    simp only [Memory.get, if_pos h0, if_pos h1, bind, Except.bind, h2]
    norm_num
    simp [apply_ite CPU.program_counter, apply_ite CPU.stack]
  have h6 : (fetched cpu m &&& 0x0FFF) < 4096 := by omega
  obtain ⟨cpu₂, hstep2, hpc2⟩ :
      ∃ cpu₂, advance r' cpu₁ d m = .ok (cpu₂, d, m) ∧
        cpu₂.program_counter = cpu.program_counter + 2 := by
    have hA : ¬((238 : Nat) &&& 255 = 224) := by decide
    have hB : (238 : Nat) &&& 255 = 238 := by decide
    unfold advance
    rw [hpc1]
    simp only [Memory.get, if_pos h6, if_pos h3, bind, Except.bind, h4, h5, hstack1]
    norm_num
    simp [hA, hB, hstack1, apply_ite CPU.stack, apply_ite CPU.program_counter]
  exact ⟨cpu₁, cpu₂, hstep1, hstep2, hpc2⟩

/-- Witness for the C9 theorem: calling 0x300 from the ROM base and returning
leaves the program counter at 514. -/
theorem call_then_return_restores_pc_witness :
    ∃ cpu₁ cpu₂,
      advance 0 cpuZero Display.new romCallRet = .ok (cpu₁, Display.new, romCallRet) ∧
      advance 0 cpu₁ Display.new romCallRet = .ok (cpu₂, Display.new, romCallRet) ∧
      cpu₂.program_counter = cpuZero.program_counter + 2 :=
  call_then_return_restores_pc 0 0 cpuZero Display.new romCallRet
    (by decide) (by decide) (by decide) (by decide) (by decide)

/-- C10: in the arithmetic operations 0x8 sub-ops 4, 5 and 7 with X = 15, the
flag write to register 15 lands after the result write, so register 15 ends
the step holding exactly the flag value determined by the operands read
before the operation — never the wrapped sum or difference. -/
theorem arith_flag_overwrites_result_when_x_is_15 (rand : Nat) (cpu : CPU)
    (d : Display) (m : Memory)
    (h1 : cpu.program_counter + 1 < 4096)
    (h2 : fetched cpu m >>> 12 = 8)
    (hX : (fetched cpu m &&& 0x0F00) >>> 8 = 15)
    (h3 : fetched cpu m &&& 0x000F = 4 ∨ fetched cpu m &&& 0x000F = 5 ∨
          fetched cpu m &&& 0x000F = 7) :
    ∃ cpu', advance rand cpu d m = .ok (cpu', d, m) ∧
      cpu'.register 15 =
        (if fetched cpu m &&& 0x000F = 4 then
           (if cpu.register 15 + cpu.register ((fetched cpu m &&& 0x00F0) >>> 4) > 255
            then 1 else 0)
         else if fetched cpu m &&& 0x000F = 5 then
           (if 0 ≤ (cpu.register 15 : Int) -
                   (cpu.register ((fetched cpu m &&& 0x00F0) >>> 4) : Int)
            then 1 else 0)
         else
           (if 0 ≤ (cpu.register ((fetched cpu m &&& 0x00F0) >>> 4) : Int) -
                   (cpu.register 15 : Int)
            then 1 else 0)) := by
  have h0 : cpu.program_counter < 4096 := by omega
  simp only [fetched] at h2 hX h3 ⊢
  unfold advance
  rcases h3 with h3 | h3 | h3 <;>
    simp only [Memory.get, if_pos h0, if_pos h1, bind, Except.bind, h2, h3, hX] <;>
    norm_num <;>
    simp [CPU.register, CPU.set_register, apply_ite CPU.registers] <;>
    split_ifs <;> simp_all

/-- Witness for the C10 theorem: `8F 04` with register 15 = 200 and
register 0 = 100 ends with register 15 holding the carry flag. -/
theorem arith_flag_overwrites_result_witness :
    ∃ cpu', advance 0 cpuAddFlag Display.new romAddToFlag =
        .ok (cpu', Display.new, romAddToFlag) ∧
      cpu'.register 15 =
        (if fetched cpuAddFlag romAddToFlag &&& 0x000F = 4 then
           (if cpuAddFlag.register 15 +
                 cpuAddFlag.register ((fetched cpuAddFlag romAddToFlag &&& 0x00F0) >>> 4) > 255
            then 1 else 0)
         else if fetched cpuAddFlag romAddToFlag &&& 0x000F = 5 then
           (if 0 ≤ (cpuAddFlag.register 15 : Int) -
                   (cpuAddFlag.register ((fetched cpuAddFlag romAddToFlag &&& 0x00F0) >>> 4) : Int)
            then 1 else 0)
         else
           (if 0 ≤ (cpuAddFlag.register ((fetched cpuAddFlag romAddToFlag &&& 0x00F0) >>> 4) : Int) -
                   (cpuAddFlag.register 15 : Int)
            then 1 else 0)) :=
  arith_flag_overwrites_result_when_x_is_15 0 cpuAddFlag Display.new romAddToFlag
    (by decide) (by decide) (by decide) (by decide)

end Crunch
